import Mathlib

/-!
Verification of `internal/core/hls_server.go` (HLS HTTP front end, registry
event loop and shutdown coordinator of rtsp-simple-server).

Go strings are modelled as `List Char`; Go's byte-level operations coincide
with the character-level ones on the ASCII data handled here.
-/

set_option maxRecDepth 4000

abbrev GoString := List Char

/-- Go `strings.HasSuffix(s, suffix)`: `len(s) >= len(suffix)` and the final
`len(suffix)` characters of `s` equal `suffix`. -/
def goHasSuffix (s suffix : GoString) : Bool :=
  decide (suffix.length ≤ s.length ∧ s.drop (s.length - suffix.length) = suffix)

/-- Go `strings.TrimSuffix(s, suffix)`: removes one trailing copy of
`suffix` when present, otherwise returns `s` unchanged. -/
def goTrimSuffix (s suffix : GoString) : GoString :=
  if goHasSuffix s suffix then s.take (s.length - suffix.length) else s

/-- The backtracking loop of Go `path.Clean`: starting from index `w`
(the buffer length after the first decrement), keep decrementing while
`w > dotdot` and the buffer character at position `w` is not a slash. -/
def backIdx (buf : GoString) (dotdot : Nat) : Nat → Nat
  | 0 => 0
  | w + 1 =>
    if w + 1 > dotdot ∧ buf.getD (w + 1) ' ' ≠ '/' then backIdx buf dotdot w
    else w + 1

/-- The main loop of Go `path.Clean`, with the remaining input as a list and
the lazybuf output accumulated in `out`.  `fuel` bounds the recursion; every
iteration consumes at least one input character, so `fuel = input length`
suffices and the fuel case is never hit when called from `goClean`. -/
def cleanFuel (rooted : Bool) : Nat → List Char → GoString → Nat → GoString
  | 0, _, out, _ => out
  | _ + 1, [], out, _ => out
  | fuel + 1, c :: rest, out, dotdot =>
    if c = '/' then
      cleanFuel rooted fuel rest out dotdot
    else if c = '.' ∧ (rest = [] ∨ rest.head? = some '/') then
      cleanFuel rooted fuel rest out dotdot
    else if c = '.' ∧ rest.head? = some '.' ∧
        (rest.tail = [] ∨ rest.tail.head? = some '/') then
      if out.length > dotdot then
        cleanFuel rooted fuel rest.tail
          (out.take (backIdx out dotdot (out.length - 1))) dotdot
      else if ¬ rooted then
        let out2 := (if out.length > 0 then out ++ ['/'] else out) ++ ['.', '.']
        cleanFuel rooted fuel rest.tail out2 out2.length
      else
        cleanFuel rooted fuel rest.tail out dotdot
    else
      let out2 :=
        (if (rooted ∧ out.length ≠ 1) ∨ (¬ rooted ∧ out.length ≠ 0)
         then out ++ ['/'] else out)
        ++ c :: rest.takeWhile (fun x => decide (x ≠ '/'))
      cleanFuel rooted fuel (rest.dropWhile (fun x => decide (x ≠ '/'))) out2 dotdot

/-- Go `path.Clean`. -/
def goClean (p : GoString) : GoString :=
  if p = [] then ['.']
  else if p.head? = some '/' then
    let out := cleanFuel true p.tail.length p.tail ['/'] 1
    if out = [] then ['.'] else out
  else
    let out := cleanFuel false p.length p [] 0
    if out = [] then ['.'] else out

/-- The `dir` component of Go `path.Split(p)`: the prefix of `p` up to and
including the final slash (empty when `p` has no slash). -/
def goSplitDir (p : GoString) : GoString :=
  (p.reverse.dropWhile (fun c => decide (c ≠ '/'))).reverse

/-- Go `path.Dir(p) = Clean(dir)` where `dir` is `Split`'s directory part. -/
def goDir (p : GoString) : GoString := goClean (goSplitDir p)

/-- Go `path.Base`: `"."` on the empty path; strip trailing slashes; `"/"`
when only slashes remain; otherwise the segment after the final slash. -/
def goBase (p : GoString) : GoString :=
  if p = [] then ['.']
  else
    let r := p.reverse.dropWhile (fun c => decide (c = '/'))
    if r = [] then ['/']
    else (r.takeWhile (fun c => decide (c ≠ '/'))).reverse

/-!
## Registry and event loop (`hlsServer.run`, `findOrCreateRemuxer`)

The `remuxers` map is modelled as an association list from path name to a
numeric worker identity; `nextId` supplies a fresh identity for each
`newHLSRemuxer` call, standing for the pointer identity of the Go value.
-/

/-- The mutable state owned by the event loop: the `remuxers` map
(association list, most recent binding first) and a source of fresh
worker identities. -/
structure LoopState where
  remuxers : List (GoString × Nat)
  nextId : Nat
deriving DecidableEq

/-- Go map lookup `s.remuxers[name]` on the association-list model. -/
def lookupName (l : List (GoString × Nat)) (k : GoString) : Option Nat :=
  match l with
  | [] => none
  | (k2, v) :: rest => if k2 = k then some v else lookupName rest k

/-- Go `delete(s.remuxers, name)` on the association-list model: removes the
first (under the no-duplicate-key invariant: the only) binding of `k`. -/
def eraseName (l : List (GoString × Nat)) (k : GoString) : List (GoString × Nat) :=
  match l with
  | [] => []
  | (k2, v) :: rest => if k2 = k then rest else (k2, v) :: eraseName rest k

/-- `hlsServer.findOrCreateRemuxer` (lines 212-228): return the registered
worker when one exists; otherwise construct a new one (a fresh identity),
register it under `pathName`, and return it. -/
def findOrCreateRemuxer (st : LoopState) (pathName : GoString) : LoopState × Nat :=
  match lookupName st.remuxers pathName with
  | some r => (st, r)
  | none => (⟨(pathName, st.nextId) :: st.remuxers, st.nextId + 1⟩, st.nextId)

/-- The three event kinds consumed by the `select` in `hlsServer.run`
(lines 104-124); a `remuxerClose` event carries the closing worker `c`,
i.e. its name `c.PathName()` and its identity. -/
inductive LoopEvent
  | sourceReady (name : GoString)
  | request (dir : GoString)
  | remuxerClose (name : GoString) (id : Nat)
deriving DecidableEq

/-- One iteration of the event loop in `hlsServer.run` (lines 104-124),
parametrised by the `hlsAlwaysRemux` configuration flag.  For a closure
event, Go skips the deletion when `!ok || c2 != c`; deletion therefore
happens exactly when the lookup yields the reporting worker itself. -/
def runStep (alwaysRemux : Bool) (st : LoopState) : LoopEvent → LoopState
  | LoopEvent.sourceReady name =>
    if alwaysRemux then (findOrCreateRemuxer st name).1 else st
  | LoopEvent.request dir => (findOrCreateRemuxer st dir).1
  | LoopEvent.remuxerClose name id =>
    if lookupName st.remuxers name = some id then
      ⟨eraseName st.remuxers name, st.nextId⟩
    else st

/-- The registry state at server construction: empty map. -/
def initLoopState : LoopState := ⟨[], 0⟩

/-- The event loop applied to a whole arrival-ordered event sequence. -/
def runLoop (alwaysRemux : Bool) (evs : List LoopEvent) : LoopState :=
  evs.foldl (runStep alwaysRemux) initLoopState

/-- At most one binding per resource name. -/
def keysNodup (l : List (GoString × Nat)) : Prop := (l.map Prod.fst).Nodup

instance (l : List (GoString × Nat)) : Decidable (keysNodup l) := by
  unfold keysNodup; infer_instance

/-!
## HTTP front end (`hlsServer.ServeHTTP`, lines 134-210)

The body-streaming loop (lines 191-206) reads the worker's `io.Reader` into a
4096-byte buffer and, after each successful write, flushes.  A reader is
modelled by the sequence of results its successive `Read` calls produce:
either a data chunk with a nil error, or an error (`io.EOF`, a failed source,
…; any data returned together with an error is discarded by the code, which
checks the error before using `n`).  The response writer is modelled by the
sequence of success/failure outcomes of its successive `Write` calls.
-/

/-- The Go string literals appearing in `ServeHTTP`, as named constants. -/
def goGET : GoString := "GET".toList

def goOPTIONS : GoString := "OPTIONS".toList

def goFavicon : GoString := "favicon.ico".toList

def goTS : GoString := ".ts".toList

def goM3U8 : GoString := ".m3u8".toList

def goSlash : GoString := "/".toList

def hdrAllowOrigin : GoString := "Access-Control-Allow-Origin".toList

def hdrAllowCredentials : GoString := "Access-Control-Allow-Credentials".toList

def hdrAllowMethods : GoString := "Access-Control-Allow-Methods".toList

def hdrAllowHeaders : GoString := "Access-Control-Allow-Headers".toList

def hdrLocation : GoString := "Location".toList

def valTrue : GoString := "true".toList

def valGetOptions : GoString := "GET, OPTIONS".toList

/-- One `Read(buf)` result of the worker's byte stream. -/
inductive ReadStep
  | chunk (data : List Nat)
  | err
deriving DecidableEq

/-- Observable client-side events: a completed chunk write, and a flush. -/
inductive WireEvent
  | write (data : List Nat)
  | flush
deriving DecidableEq

/-- The copy loop of `ServeHTTP` (lines 192-205): read a chunk; on read error
return silently; write it; on write error return silently (nothing was
delivered); otherwise flush and continue.  `wok` gives the outcome of each
successive `w.Write` (exhaustion meaning further writes succeed). -/
def copyChunks : List ReadStep → List Bool → List WireEvent
  | [], _ => []
  | ReadStep.err :: _, _ => []
  | ReadStep.chunk d :: rest, wok =>
    if wok.headD true then
      WireEvent.write d :: WireEvent.flush :: copyChunks rest wok.tail
    else []

/-- A trace is a sequence of completed chunk writes, each immediately
followed by its flush. -/
def chunkedOk : List WireEvent → Bool
  | [] => true
  | WireEvent.write _ :: WireEvent.flush :: rest => chunkedOk rest
  | _ => false

/-- Outcome of the GET path-decomposition logic (lines 157-176). -/
inductive RouteResult
  | notFound
  | redirect (location : GoString)
  | lookup (dir file : GoString)
deriving DecidableEq

/-- The anonymous function of lines 163-168: paths ending in `.ts` or
`.m3u8` are split by `path.Dir` / `path.Base`; any other path becomes the
directory, with no file name. -/
def splitDirFile (pa : GoString) : GoString × GoString :=
  if goHasSuffix pa goTS ∨ goHasSuffix pa goM3U8 then
    (goDir pa, goBase pa)
  else (pa, [])

/-- Lines 157-176 of `ServeHTTP`: empty or `favicon.ico` paths are rejected;
the path is split by `splitDirFile`; a directory with no file and no
trailing slash is redirected to `"/" + dir + "/"`; otherwise one trailing
slash is trimmed and the pair is used for the registry lookup message. -/
def routeGet (pa : GoString) : RouteResult :=
  if pa = [] ∨ pa = goFavicon then RouteResult.notFound
  else
    let df := splitDirFile pa
    if df.2 = [] ∧ ¬ goHasSuffix df.1 goSlash then
      RouteResult.redirect ('/' :: (df.1 ++ goSlash))
    else
      RouteResult.lookup (goTrimSuffix df.1 goSlash) df.2

/-- What one call of `ServeHTTP` did: response headers in the order they were
added, the explicitly written status (`none` when `WriteHeader` was never
called, Go then defaulting on first write), the body events, and the request
message submitted to the event loop, if any. -/
structure HttpTrace where
  headers : List (GoString × GoString)
  status : Option Nat
  events : List WireEvent
  sent : Option (GoString × GoString)
deriving DecidableEq

/-- Result of one `ServeHTTP` call.  `fault` is an out-of-bounds string index
(a Go panic); `blocked dir file` is a handler suspended forever on the bare
reply receive `res := <-cres` after submitting the message `(dir, file)`. -/
inductive ServeResult
  | fault
  | blocked (dir file : GoString)
  | done (t : HttpTrace)
deriving DecidableEq

/-- The request message a `ServeHTTP` call handed to the event loop, if any
(also defined for a call that is still blocked awaiting its reply). -/
def sentMsg : ServeResult → Option (GoString × GoString)
  | ServeResult.fault => none
  | ServeResult.blocked dir file => some (dir, file)
  | ServeResult.done t => t.sent

/-- Headers attached to every response (lines 140-141). -/
def baseHeaders (allowOrigin : GoString) : List (GoString × GoString) :=
  [(hdrAllowOrigin, allowOrigin), (hdrAllowCredentials, valTrue)]

/-- `hlsServer.ServeHTTP` (lines 134-210).  `urlPath` is `r.URL.Path`;
`acrh` the request's `Access-Control-Request-Headers` header; `cancelled`
whether the submit `select` (lines 187-209) took the `ctx.Done()` branch;
`reply` the worker's treatment of the reply slot: `none` if never filled,
`some none` for an explicit nil reader, `some (some reads)` for a byte
stream behaving as `reads`; `wok` the client write outcomes. -/
def ServeHTTP (allowOrigin method urlPath acrh : GoString) (cancelled : Bool)
    (reply : Option (Option (List ReadStep))) (wok : List Bool) : ServeResult :=
  match urlPath with
  | [] => ServeResult.fault
  | _ :: pa =>
    let hdrs := baseHeaders allowOrigin
    if method = goOPTIONS then
      ServeResult.done
        { headers := hdrs ++
            [(hdrAllowMethods, valGetOptions), (hdrAllowHeaders, acrh)],
          status := some 200, events := [], sent := none }
    else if method = goGET then
      match routeGet pa with
      | RouteResult.notFound =>
        ServeResult.done
          { headers := hdrs, status := some 404, events := [], sent := none }
      | RouteResult.redirect loc =>
        ServeResult.done
          { headers := hdrs ++ [(hdrLocation, loc)],
            status := some 301, events := [], sent := none }
      | RouteResult.lookup dir file =>
        if cancelled then
          ServeResult.done
            { headers := hdrs, status := none, events := [], sent := none }
        else
          match reply with
          | none => ServeResult.blocked dir file
          | some none =>
            ServeResult.done
              { headers := hdrs, status := none, events := [],
                sent := some (dir, file) }
          | some (some reads) =>
            ServeResult.done
              { headers := hdrs, status := none, events := copyChunks reads wok,
                sent := some (dir, file) }
    else
      ServeResult.done
        { headers := hdrs, status := some 404, events := [], sent := none }

/-!
## Registry-boundary waits and cancellation (C8)

Each blocking operation that crosses the registry boundary is modelled as a
function of whether its partner ever completes the rendezvous (`delivered`)
and whether the cancellation scope has fired (`cancelled`):
`some true` means the operation completed, `some false` that it was
abandoned because cancellation was observed, and `none` that the caller
remains blocked. -/

/-- The submit `select` of `ServeHTTP` (lines 187-209): `s.request <- hreq`
raced against `<-s.ctx.Done()`. -/
def requestSubmitWait (delivered cancelled : Bool) : Option Bool :=
  if delivered then some true else if cancelled then some false else none

/-- `OnPathSourceReady` (lines 239-244): `s.pathSourceReady <- pa` raced
against `<-s.ctx.Done()`. -/
def sourceReadyWait (delivered cancelled : Bool) : Option Bool :=
  if delivered then some true else if cancelled then some false else none

/-- `OnRemuxerClose` (lines 231-236): `s.remuxerClose <- c` raced against
`<-s.ctx.Done()`. -/
def remuxerCloseWait (delivered cancelled : Bool) : Option Bool :=
  if delivered then some true else if cancelled then some false else none

/-- Line 189, `res := <-cres`: a bare channel receive on the reply slot,
with no simultaneous wait on the cancellation scope. -/
def replyAwait (delivered _cancelled : Bool) : Option Bool :=
  if delivered then some true else none

/-- A wait cannot remain blocked once the cancellation scope has fired. -/
def unblocksOnCancel (f : Bool → Bool → Option Bool) : Prop :=
  ∀ delivered, (f delivered true).isSome = true

/-!
## Shutdown coordinator (C9)

`close` (lines 91-95) cancels the scope and joins the wait group; `run`
(lines 97-131), on observing cancellation, leaves its loop, cancels again
(idempotently), shuts the HTTP transport down, deregisters from the path
manager, and only then releases its wait-group unit (the deferred
`s.wg.Done()`).  The server's wait group starts at 1 (the `s.wg.Add(1)` of
`newHLSServer`) and each worker created by the loop holds one further unit.
Workers are not part of `src/`; that they register in the shared wait group
at creation and release their unit when they finish is modelled from the
spec ("the coordinator then blocks until every spawned unit of work ... has
finished").  The model is an interleaving transition system over the
program counters of the loop, the `close` caller and the worker count. -/

/-- Program counter of the `run` goroutine's shutdown path. -/
inductive LoopPc
  | looping
  | brokeOut
  | didCancel
  | didShutdown
  | didDereg
  | exited
deriving DecidableEq

/-- Program counter of the `close` caller. -/
inductive ClosePc
  | idle
  | waiting
  | returned
deriving DecidableEq

/-- Joint state: cancellation flag, loop pc, number of workers still
running, `close` caller pc, wait-group counter, and ghost flags recording
that `hs.Shutdown` and `OnHLSServerSet(nil)` have happened. -/
structure SysState where
  cancelled : Bool
  loopPc : LoopPc
  liveWorkers : Nat
  closePc : ClosePc
  wg : Nat
  httpShut : Bool
  dereg : Bool
deriving DecidableEq

/-- State at the end of `newHLSServer`: nothing cancelled, loop running,
no workers, wait group at 1 (the loop's unit). -/
def initSys : SysState := ⟨false, LoopPc.looping, 0, ClosePc.idle, 1, false, false⟩

/-- One interleaving step of the system. -/
inductive SysStep : SysState → SysState → Prop
  /-- `close` line 92: `s.ctxCancel()`, then it proceeds to `s.wg.Wait()`. -/
  | closeCancel (c : Bool) (lp : LoopPc) (lw : Nat) (wg : Nat) (hs dg : Bool) :
      SysStep ⟨c, lp, lw, ClosePc.idle, wg, hs, dg⟩
        ⟨true, lp, lw, ClosePc.waiting, wg, hs, dg⟩
  /-- `close` line 93: `s.wg.Wait()` returns once the counter is zero. -/
  | closeReturn (c : Bool) (lp : LoopPc) (lw : Nat) (hs dg : Bool) :
      SysStep ⟨c, lp, lw, ClosePc.waiting, 0, hs, dg⟩
        ⟨c, lp, lw, ClosePc.returned, 0, hs, dg⟩
  /-- The loop creates a worker (`findOrCreateRemuxer`); the new worker
  adds its unit to the shared wait group (modelled from the spec). -/
  | spawnWorker (c : Bool) (lw : Nat) (cp : ClosePc) (wg : Nat) (hs dg : Bool) :
      SysStep ⟨c, LoopPc.looping, lw, cp, wg, hs, dg⟩
        ⟨c, LoopPc.looping, lw + 1, cp, wg + 1, hs, dg⟩
  /-- Lines 121-122: the loop observes `<-s.ctx.Done()` and breaks out. -/
  | observeCancel (lw : Nat) (cp : ClosePc) (wg : Nat) (hs dg : Bool) :
      SysStep ⟨true, LoopPc.looping, lw, cp, wg, hs, dg⟩
        ⟨true, LoopPc.brokeOut, lw, cp, wg, hs, dg⟩
  /-- Line 126: `s.ctxCancel()` again (idempotent). -/
  | cancelAgain (c : Bool) (lw : Nat) (cp : ClosePc) (wg : Nat) (hs dg : Bool) :
      SysStep ⟨c, LoopPc.brokeOut, lw, cp, wg, hs, dg⟩
        ⟨true, LoopPc.didCancel, lw, cp, wg, hs, dg⟩
  /-- Line 128: `hs.Shutdown(context.Background())`. -/
  | shutdownHTTP (c : Bool) (lw : Nat) (cp : ClosePc) (wg : Nat) (hs dg : Bool) :
      SysStep ⟨c, LoopPc.didCancel, lw, cp, wg, hs, dg⟩
        ⟨c, LoopPc.didShutdown, lw, cp, wg, true, dg⟩
  /-- Line 130: `s.pathManager.OnHLSServerSet(nil)`. -/
  | deregister (c : Bool) (lw : Nat) (cp : ClosePc) (wg : Nat) (hs dg : Bool) :
      SysStep ⟨c, LoopPc.didShutdown, lw, cp, wg, hs, dg⟩
        ⟨c, LoopPc.didDereg, lw, cp, wg, hs, true⟩
  /-- Line 98: the deferred `s.wg.Done()` runs as `run` returns. -/
  | loopExit (c : Bool) (lw : Nat) (cp : ClosePc) (wg : Nat) (hs dg : Bool) :
      SysStep ⟨c, LoopPc.didDereg, lw, cp, wg + 1, hs, dg⟩
        ⟨c, LoopPc.exited, lw, cp, wg, hs, dg⟩
  /-- A worker finishes and releases its wait-group unit (modelled from the
  spec; workers are bound to the same cancellation scope). -/
  | workerExit (c : Bool) (lp : LoopPc) (lw : Nat) (cp : ClosePc) (wg : Nat)
      (hs dg : Bool) :
      SysStep ⟨c, lp, lw + 1, cp, wg + 1, hs, dg⟩
        ⟨c, lp, lw, cp, wg, hs, dg⟩

/-- States reachable from `initSys`. -/
inductive SysReachable : SysState → Prop
  | init : SysReachable initSys
  | step {s s2 : SysState} : SysReachable s → SysStep s s2 → SysReachable s2

/-- Wait-group units held by the loop goroutine. -/
def loopUnits : LoopPc → Nat
  | LoopPc.exited => 0
  | _ => 1

/-- The inductive invariant: the wait-group counter counts the loop unit
plus one unit per live worker; a non-idle `close` caller implies the scope
is cancelled; the HTTP shutdown and the deregistration have happened by the
time the loop reaches the corresponding pc; and a returned `close` call
implies a zero counter. -/
def SysInv (st : SysState) : Prop :=
  st.wg = loopUnits st.loopPc + st.liveWorkers
  ∧ (st.closePc ≠ ClosePc.idle → st.cancelled = true)
  ∧ (st.loopPc = LoopPc.didShutdown ∨ st.loopPc = LoopPc.didDereg
      ∨ st.loopPc = LoopPc.exited → st.httpShut = true)
  ∧ (st.loopPc = LoopPc.didDereg ∨ st.loopPc = LoopPc.exited
      → st.dereg = true)
  ∧ (st.closePc = ClosePc.returned → st.wg = 0)

example : goDir ("cam1/index.m3u8".toList) = "cam1".toList := by decide
example : goBase ("cam1/index.m3u8".toList) = "index.m3u8".toList := by decide
example : goDir ("index.m3u8".toList) = ".".toList := by decide
example : goClean ("a/b/../c/".toList) = "a/c".toList := by decide
example : goClean ("/../a//b".toList) = "/a/b".toList := by decide
example : goBase ("a///".toList) = "a".toList := by decide
example : goBase ("///".toList) = "/".toList := by decide
example : goTrimSuffix ("cam1/".toList) ("/".toList) = "cam1".toList := by decide
example : goHasSuffix ("x.m3u8".toList) (".m3u8".toList) = true := by decide

example :
    routeGet ("cam1/index.m3u8".toList)
      = RouteResult.lookup ("cam1".toList) ("index.m3u8".toList) := by decide
example :
    routeGet ("cam1".toList) = RouteResult.redirect ("/cam1/".toList) := by decide
example :
    routeGet ("cam1/".toList) = RouteResult.lookup ("cam1".toList) [] := by decide
example : routeGet ("favicon.ico".toList) = RouteResult.notFound := by decide
example :
    sentMsg (ServeHTTP [] ("GET".toList) ("/cam1/seg3.ts".toList) [] false
        (some none) []) = some ("cam1".toList, "seg3.ts".toList) := by decide

lemma lookupName_none_iff (l : List (GoString × Nat)) (k : GoString) :
    lookupName l k = none ↔ k ∉ l.map Prod.fst := by
  induction l with
  | nil => simp [lookupName]
  | cons hd tl ih =>
    obtain ⟨k2, v⟩ := hd
    by_cases h : k2 = k <;> simp [lookupName, h, ih, Ne.symm]

lemma eraseName_sublist (l : List (GoString × Nat)) (k : GoString) :
    (eraseName l k).Sublist l := by
  induction l with
  | nil => simp [eraseName]
  | cons hd tl ih =>
    obtain ⟨k2, v⟩ := hd
    by_cases h : k2 = k
    · simp [eraseName, h]
    · simpa [eraseName, h] using ih.cons₂ (k2, v)

lemma keysNodup_eraseName (l : List (GoString × Nat)) (k : GoString)
    (h : keysNodup l) : keysNodup (eraseName l k) :=
  List.Nodup.sublist ((eraseName_sublist l k).map Prod.fst) h

lemma lookupName_eraseName_self (l : List (GoString × Nat)) (k : GoString)
    (h : keysNodup l) : lookupName (eraseName l k) k = none := by
  induction l with
  | nil => rfl
  | cons hd tl ih =>
    obtain ⟨k2, v⟩ := hd
    simp only [keysNodup, List.map_cons, List.nodup_cons] at h
    by_cases hk : k2 = k
    · subst hk
      simp only [eraseName, if_pos rfl]
      rw [lookupName_none_iff]
      exact h.1
    · simp only [eraseName, if_neg hk, lookupName, if_neg hk]
      exact ih h.2

lemma keysNodup_findOrCreate (st : LoopState) (name : GoString)
    (h : keysNodup st.remuxers) :
    keysNodup (findOrCreateRemuxer st name).1.remuxers := by
  unfold findOrCreateRemuxer
  cases hl : lookupName st.remuxers name with
  | some r => simpa using h
  | none =>
    simp only [keysNodup, List.map_cons, List.nodup_cons]
    exact ⟨(lookupName_none_iff st.remuxers name).1 hl, h⟩

lemma keysNodup_runStep (alwaysRemux : Bool) (st : LoopState) (ev : LoopEvent)
    (h : keysNodup st.remuxers) : keysNodup (runStep alwaysRemux st ev).remuxers := by
  cases ev with
  | sourceReady name =>
    by_cases har : alwaysRemux
    · simpa [runStep, har] using keysNodup_findOrCreate st name h
    · simpa [runStep, har] using h
  | request dir => simpa [runStep] using keysNodup_findOrCreate st dir h
  | remuxerClose name id =>
    by_cases hl : lookupName st.remuxers name = some id
    · simpa [runStep, hl] using keysNodup_eraseName st.remuxers name h
    · simpa [runStep, hl] using h

lemma keysNodup_foldl (alwaysRemux : Bool) (evs : List LoopEvent) (st : LoopState)
    (h : keysNodup st.remuxers) :
    keysNodup (evs.foldl (runStep alwaysRemux) st).remuxers := by
  induction evs generalizing st with
  | nil => simpa using h
  | cons ev rest ih =>
    exact ih (runStep alwaysRemux st ev) (keysNodup_runStep alwaysRemux st ev h)

/-- C1.  The registry holds at most one live worker per resource name:
`findOrCreateRemuxer` returns the registered handle when one exists, registers
a fresh handle only when none is, and therefore no sequence of event-loop
events (requests, source-ready events, worker closures), all of which are
processed serially by `run`, ever yields two registry bindings for the same
name. -/
theorem hls_C1 :
    (∀ (st : LoopState) (name : GoString) (r : Nat),
      lookupName st.remuxers name = some r → findOrCreateRemuxer st name = (st, r))
    ∧ (∀ (st : LoopState) (name : GoString),
      lookupName st.remuxers name = none →
        (findOrCreateRemuxer st name).2 = st.nextId ∧
        (findOrCreateRemuxer st name).1.remuxers = (name, st.nextId) :: st.remuxers)
    ∧ (∀ (alwaysRemux : Bool) (evs : List LoopEvent),
      keysNodup (runLoop alwaysRemux evs).remuxers) := by
  refine ⟨?_, ?_, ?_⟩
  · intro st name r h
    simp [findOrCreateRemuxer, h]
  · intro st name h
    simp [findOrCreateRemuxer, h]
  · intro alwaysRemux evs
    exact keysNodup_foldl alwaysRemux evs initLoopState (by simp [initLoopState, keysNodup])

/-- Witness for C1 at concrete inputs: a registered name is returned as-is,
an unregistered name is freshly registered, and a concrete event sequence
(two requests for the same name, a source-ready event, a stale closure)
leaves the registry duplicate-free. -/
theorem hls_C1_witness :
    findOrCreateRemuxer ⟨[(['x'], 5)], 6⟩ ['x'] = (⟨[(['x'], 5)], 6⟩, 5)
    ∧ (findOrCreateRemuxer ⟨[(['x'], 5)], 6⟩ ['y']).1.remuxers
        = [(['y'], 6), (['x'], 5)]
    ∧ keysNodup (runLoop true
        [LoopEvent.request ['x'], LoopEvent.sourceReady ['x'],
         LoopEvent.request ['x'], LoopEvent.remuxerClose ['x'] 7]).remuxers := by
  refine ⟨hls_C1.1 ⟨[(['x'], 5)], 6⟩ ['x'] 5 (by decide), ?_, hls_C1.2.2 true _⟩
  have h := (hls_C1.2.1 ⟨[(['x'], 5)], 6⟩ ['y'] (by decide)).2
  simpa using h

/-- C2.  Processing a `remuxerClose` event for worker `(name, id)` deletes the
binding of `name` exactly when the current binding is that same worker; when
the name is unbound or bound to a different (newer) worker, the whole loop
state is returned unchanged, so a stale closure never evicts a replacement
worker registered under the same name. -/
theorem hls_C2 (alwaysRemux : Bool) (st : LoopState) (name : GoString) (id : Nat)
    (hnd : keysNodup st.remuxers) :
    (lookupName st.remuxers name = some id →
      (runStep alwaysRemux st (LoopEvent.remuxerClose name id)).remuxers
          = eraseName st.remuxers name ∧
      lookupName
        (runStep alwaysRemux st (LoopEvent.remuxerClose name id)).remuxers name
          = none)
    ∧ ((lookupName st.remuxers name = none
        ∨ ∃ d, lookupName st.remuxers name = some d ∧ d ≠ id) →
      runStep alwaysRemux st (LoopEvent.remuxerClose name id) = st) := by
  constructor
  · intro h
    have herase : (runStep alwaysRemux st (LoopEvent.remuxerClose name id)).remuxers
        = eraseName st.remuxers name := by
      simp [runStep, h]
    exact ⟨herase, by rw [herase]; exact lookupName_eraseName_self st.remuxers name hnd⟩
  · intro h
    rcases h with h | ⟨d, hd, hne⟩
    · simp [runStep, h]
    · simp [runStep, hd, hne]

/-- Witness for C2: with worker B = `("x", 1)` currently registered (having
replaced the closed worker A = `("x", 0)`), the stale closure of A leaves the
state untouched, and a closure of B itself removes the binding. -/
theorem hls_C2_witness :
    runStep false ⟨[(['x'], 1)], 2⟩ (LoopEvent.remuxerClose ['x'] 0)
        = ⟨[(['x'], 1)], 2⟩
    ∧ (runStep false ⟨[(['x'], 1)], 2⟩ (LoopEvent.remuxerClose ['x'] 1)).remuxers
        = [] := by
  constructor
  · exact (hls_C2 false ⟨[(['x'], 1)], 2⟩ ['x'] 0 (by decide)).2
      (Or.inr ⟨1, rfl, by decide⟩)
  · have h := ((hls_C2 false ⟨[(['x'], 1)], 2⟩ ['x'] 1 (by decide)).1 (by decide)).1
    simpa [eraseName] using h

lemma dropWhile_head_false (q : Char → Bool) (l : List Char) (a : Char)
    (t : List Char) (h : l.dropWhile q = a :: t) : q a = false := by
  induction l with
  | nil => simp [List.dropWhile] at h
  | cons x xs ih =>
    by_cases hq : q x = true
    · simp only [List.dropWhile, hq] at h
      exact ih h
    · simp only [List.dropWhile, eq_false_of_ne_true hq] at h
      injection h with h1 h2
      rw [← h1]
      exact eq_false_of_ne_true hq

lemma goBase_ne_nil (p : GoString) : goBase p ≠ [] := by
  unfold goBase
  by_cases hp : p = []
  · simp [hp]
  simp only [if_neg hp]
  by_cases hrn : p.reverse.dropWhile (fun c => decide (c = '/')) = []
  · simp [hrn]
  simp only [if_neg hrn]
  cases hc : p.reverse.dropWhile (fun c => decide (c = '/')) with
  | nil => exact absurd hc hrn
  | cons a t =>
    have ha := dropWhile_head_false (fun c => decide (c = '/')) p.reverse a t hc
    simp only [decide_eq_false_iff_not] at ha
    rw [List.takeWhile_cons_of_pos (by simpa using ha)]
    simp

lemma mediaSuffix_ne (pa : GoString)
    (h : goHasSuffix pa goTS = true ∨ goHasSuffix pa goM3U8 = true) :
    ¬(pa = [] ∨ pa = goFavicon) := by
  rcases h with h | h
  · rintro (rfl | rfl) <;> exact absurd h (by decide)
  · rintro (rfl | rfl) <;> exact absurd h (by decide)

lemma splitDirFile_suffix (pa : GoString)
    (h : goHasSuffix pa goTS = true ∨ goHasSuffix pa goM3U8 = true) :
    splitDirFile pa = (goDir pa, goBase pa) := by
  unfold splitDirFile
  rw [if_pos h]

lemma splitDirFile_nosuffix (pa : GoString)
    (h1 : goHasSuffix pa goTS = false)
    (h2 : goHasSuffix pa goM3U8 = false) :
    splitDirFile pa = (pa, []) := by
  unfold splitDirFile
  rw [if_neg (by simp [h1, h2])]

lemma routeGet_suffix (pa : GoString)
    (h : goHasSuffix pa goTS = true ∨ goHasSuffix pa goM3U8 = true) :
    routeGet pa
      = RouteResult.lookup (goTrimSuffix (goDir pa) goSlash) (goBase pa) := by
  unfold routeGet
  rw [if_neg (mediaSuffix_ne pa h)]
  simp only [splitDirFile_suffix pa h]
  rw [if_neg (fun hcon => goBase_ne_nil pa hcon.1)]

lemma routeGet_redirect (pa : GoString)
    (hne : ¬(pa = [] ∨ pa = goFavicon))
    (h1 : goHasSuffix pa goTS = false)
    (h2 : goHasSuffix pa goM3U8 = false)
    (h3 : goHasSuffix pa goSlash = false) :
    routeGet pa = RouteResult.redirect ('/' :: (pa ++ goSlash)) := by
  unfold routeGet
  rw [if_neg hne]
  simp only [splitDirFile_nosuffix pa h1 h2]
  rw [if_pos ⟨by trivial, fun hh => Bool.noConfusion (h3 ▸ hh)⟩]

lemma routeGet_dirSlash (pa : GoString)
    (hne : ¬(pa = [] ∨ pa = goFavicon))
    (h1 : goHasSuffix pa goTS = false)
    (h2 : goHasSuffix pa goM3U8 = false)
    (h3 : goHasSuffix pa goSlash = true) :
    routeGet pa = RouteResult.lookup (goTrimSuffix pa goSlash) [] := by
  unfold routeGet
  rw [if_neg hne]
  simp only [splitDirFile_nosuffix pa h1 h2]
  rw [if_neg (fun hcon => hcon.2 h3)]

/-- C3.  GET routing: a path whose component after the leading slash ends in
`.ts` or `.m3u8` is split by `path.Dir` / `path.Base` into the lookup
message (`/cam1/index.m3u8` giving resource `cam1`, asset `index.m3u8`); a
path with no recognized suffix and no trailing slash gets a 301 redirect to
the same path plus `/` without contacting the registry; a path with no
recognized suffix but a trailing slash has the slash trimmed before the
lookup message is built. -/
theorem hls_C3 :
    (∀ (o acrh pa : GoString) (reply : Option (Option (List ReadStep)))
        (wok : List Bool),
      (goHasSuffix pa goTS = true ∨ goHasSuffix pa goM3U8 = true) →
      sentMsg (ServeHTTP o goGET ('/' :: pa) acrh false reply wok)
        = some (goTrimSuffix (goDir pa) goSlash, goBase pa))
    ∧ sentMsg (ServeHTTP [] goGET ("/cam1/index.m3u8".toList) [] false
        (some none) []) = some ("cam1".toList, "index.m3u8".toList)
    ∧ (∀ (o acrh pa : GoString) (cancelled : Bool)
        (reply : Option (Option (List ReadStep))) (wok : List Bool),
      ¬(pa = [] ∨ pa = goFavicon) →
      goHasSuffix pa goTS = false →
      goHasSuffix pa goM3U8 = false →
      goHasSuffix pa goSlash = false →
      ServeHTTP o goGET ('/' :: pa) acrh cancelled reply wok
        = ServeResult.done
            ⟨baseHeaders o ++ [(hdrLocation, '/' :: (pa ++ goSlash))],
             some 301, [], none⟩)
    ∧ (∀ (o acrh pa : GoString) (reply : Option (Option (List ReadStep)))
        (wok : List Bool),
      ¬(pa = [] ∨ pa = goFavicon) →
      goHasSuffix pa goTS = false →
      goHasSuffix pa goM3U8 = false →
      goHasSuffix pa goSlash = true →
      sentMsg (ServeHTTP o goGET ('/' :: pa) acrh false reply wok)
        = some (goTrimSuffix pa goSlash, [])) := by
  have hm1 : goGET ≠ goOPTIONS := by decide
  refine ⟨?_, by decide, ?_, ?_⟩
  · intro o acrh pa reply wok h
    have hr := routeGet_suffix pa h
    cases reply with
    | none => simp [ServeHTTP, hm1, hr, sentMsg]
    | some r =>
      cases r with
      | none => simp [ServeHTTP, hm1, hr, sentMsg]
      | some reads => simp [ServeHTTP, hm1, hr, sentMsg]
  · intro o acrh pa cancelled reply wok hne h1 h2 h3
    have hr := routeGet_redirect pa hne h1 h2 h3
    simp [ServeHTTP, hm1, hr]
  · intro o acrh pa reply wok hne h1 h2 h3
    have hr := routeGet_dirSlash pa hne h1 h2 h3
    cases reply with
    | none => simp [ServeHTTP, hm1, hr, sentMsg]
    | some r =>
      cases r with
      | none => simp [ServeHTTP, hm1, hr, sentMsg]
      | some reads => simp [ServeHTTP, hm1, hr, sentMsg]

/-- Witness for C3 at concrete inputs: a `.ts` request, the spec's `.m3u8`
example, the `/cam1` redirect, and the trailing-slash lookup. -/
theorem hls_C3_witness :
    sentMsg (ServeHTTP [] goGET ("/cam1/seg0.ts".toList) [] false none [])
      = some (goTrimSuffix (goDir ("cam1/seg0.ts".toList)) goSlash,
              goBase ("cam1/seg0.ts".toList))
    ∧ ServeHTTP [] goGET ("/cam1".toList) [] false none []
      = ServeResult.done
          ⟨baseHeaders [] ++ [(hdrLocation, "/cam1/".toList)],
           some 301, [], none⟩
    ∧ sentMsg (ServeHTTP [] goGET ("/cam1/".toList) [] false none [])
      = some (goTrimSuffix ("cam1/".toList) goSlash, []) := by
  refine ⟨hls_C3.1 [] [] ("cam1/seg0.ts".toList) none [] (Or.inl (by decide)),
    ?_, hls_C3.2.2.2 [] [] ("cam1/".toList) none [] (by decide) (by decide)
      (by decide) (by decide)⟩
  have h := hls_C3.2.2.1 [] [] ("cam1".toList) false none [] (by decide) (by decide)
    (by decide) (by decide)
  simpa using h

/-- C4.  Every OPTIONS request (any non-empty URL path) is answered
immediately with status 200, no body, no registry contact, and the headers
`Access-Control-Allow-Origin` (configured value),
`Access-Control-Allow-Credentials: true`,
`Access-Control-Allow-Methods: GET, OPTIONS` and
`Access-Control-Allow-Headers` echoing the request's
`Access-Control-Request-Headers` value. -/
theorem hls_C4 (o p acrh : GoString) (cancelled : Bool)
    (reply : Option (Option (List ReadStep))) (wok : List Bool) (hp : p ≠ []) :
    ServeHTTP o goOPTIONS p acrh cancelled reply wok
      = ServeResult.done
          ⟨baseHeaders o ++ [(hdrAllowMethods, valGetOptions),
                             (hdrAllowHeaders, acrh)],
           some 200, [], none⟩ := by
  cases p with
  | nil => exact absurd rfl hp
  | cons c pa => simp [ServeHTTP]

/-- Witness for C4 at a concrete request. -/
theorem hls_C4_witness :
    ServeHTTP ("*".toList) goOPTIONS ("/cam1/".toList) ("X-Custom".toList)
        false none []
      = ServeResult.done
          ⟨baseHeaders ("*".toList) ++
            [(hdrAllowMethods, valGetOptions),
             (hdrAllowHeaders, "X-Custom".toList)],
           some 200, [], none⟩ :=
  hls_C4 ("*".toList) ("/cam1/".toList) ("X-Custom".toList) false none []
    (by decide)

/-- C5.  Any method other than GET and OPTIONS is answered 404 with no
request message built, and so is a GET whose path after the leading slash is
empty or `favicon.ico`. -/
theorem hls_C5 :
    (∀ (o m p acrh : GoString) (cancelled : Bool)
        (reply : Option (Option (List ReadStep))) (wok : List Bool),
      p ≠ [] → m ≠ goGET → m ≠ goOPTIONS →
      ServeHTTP o m p acrh cancelled reply wok
        = ServeResult.done ⟨baseHeaders o, some 404, [], none⟩)
    ∧ (∀ (o acrh pa : GoString) (cancelled : Bool)
        (reply : Option (Option (List ReadStep))) (wok : List Bool),
      (pa = [] ∨ pa = goFavicon) →
      ServeHTTP o goGET ('/' :: pa) acrh cancelled reply wok
        = ServeResult.done ⟨baseHeaders o, some 404, [], none⟩) := by
  constructor
  · intro o m p acrh cancelled reply wok hp hg ho
    cases p with
    | nil => exact absurd rfl hp
    | cons c pa => simp [ServeHTTP, hg, ho]
  · intro o acrh pa cancelled reply wok h
    have hr : routeGet pa = RouteResult.notFound := by
      unfold routeGet; rw [if_pos h]
    simp [ServeHTTP, hr, show goGET ≠ goOPTIONS from by decide]

/-- Witness for C5: a POST request and the GET requests for `/` and
`/favicon.ico`. -/
theorem hls_C5_witness :
    ServeHTTP [] ("POST".toList) ("/cam1/".toList) [] false none []
      = ServeResult.done ⟨baseHeaders [], some 404, [], none⟩
    ∧ ServeHTTP [] goGET ("/".toList) [] false none []
      = ServeResult.done ⟨baseHeaders [], some 404, [], none⟩
    ∧ ServeHTTP [] goGET ("/favicon.ico".toList) [] false none []
      = ServeResult.done ⟨baseHeaders [], some 404, [], none⟩ :=
  ⟨hls_C5.1 [] ("POST".toList) ("/cam1/".toList) [] false none [] (by decide)
      (by decide) (by decide),
   hls_C5.2 [] [] [] false none [] (Or.inl rfl),
   hls_C5.2 [] [] ("favicon.ico".toList) false none [] (Or.inr (by decide))⟩

/-- C6.  Whenever a request message was submitted and the reply slot is
filled with the absence value (a nil reader), the handler writes no body
bytes, performs no further action and terminates normally
(`ServeResult.done`, so no fault), leaving the status at its default. -/
theorem hls_C6 (o m p acrh : GoString) (wok : List Bool) (t : HttpTrace)
    (h : ServeHTTP o m p acrh false (some none) wok = ServeResult.done t)
    (hs : t.sent.isSome = true) :
    t.events = [] ∧ t.status = none := by
  cases p with
  | nil => exact absurd h (by simp [ServeHTTP])
  | cons c pa =>
    by_cases hm1 : m = goOPTIONS
    · rw [show ServeHTTP o m (c :: pa) acrh false (some none) wok
          = ServeResult.done
              ⟨baseHeaders o ++ [(hdrAllowMethods, valGetOptions),
                                 (hdrAllowHeaders, acrh)],
               some 200, [], none⟩ from by simp [ServeHTTP, hm1]] at h
      cases h
      simp at hs
    by_cases hm2 : m = goGET
    · subst hm2
      cases hr : routeGet pa with
      | notFound =>
        rw [show ServeHTTP o goGET (c :: pa) acrh false (some none) wok
            = ServeResult.done ⟨baseHeaders o, some 404, [], none⟩ from by
          simp [ServeHTTP, hr, show ¬ goGET = goOPTIONS from by decide]] at h
        cases h
        simp at hs
      | redirect loc =>
        rw [show ServeHTTP o goGET (c :: pa) acrh false (some none) wok
            = ServeResult.done
                ⟨baseHeaders o ++ [(hdrLocation, loc)], some 301, [], none⟩
          from by
          simp [ServeHTTP, hr, show ¬ goGET = goOPTIONS from by decide]] at h
        cases h
        simp at hs
      | lookup dir file =>
        rw [show ServeHTTP o goGET (c :: pa) acrh false (some none) wok
            = ServeResult.done ⟨baseHeaders o, none, [], some (dir, file)⟩
          from by
          simp [ServeHTTP, hr, show ¬ goGET = goOPTIONS from by decide]] at h
        cases h
        exact ⟨rfl, rfl⟩
    · rw [show ServeHTTP o m (c :: pa) acrh false (some none) wok
          = ServeResult.done ⟨baseHeaders o, some 404, [], none⟩ from by
        simp [ServeHTTP, hm1, hm2]] at h
      cases h
      simp at hs

/-- Witness for C6: a directory request for `cam1` answered with a nil
reader. -/
theorem hls_C6_witness :
    (⟨baseHeaders [], none, [], some ("cam1".toList, [])⟩ : HttpTrace).events = []
    ∧ (⟨baseHeaders [], none, [], some ("cam1".toList, [])⟩ : HttpTrace).status
        = none :=
  hls_C6 [] goGET ("/cam1/".toList) [] [] _ (by decide) (by decide)

lemma chunkedOk_copyChunks (reads : List ReadStep) (wok : List Bool) :
    chunkedOk (copyChunks reads wok) = true := by
  induction reads generalizing wok with
  | nil => rfl
  | cons step rest ih =>
    cases step with
    | err => rfl
    | chunk d =>
      by_cases hw : wok.headD true = true
      · simp only [copyChunks, hw, if_pos]
        exact ih wok.tail
      · simp only [copyChunks, eq_false_of_ne_true hw]
        rfl

lemma copyChunks_write_mem (reads : List ReadStep) (wok : List Bool)
    (d : List Nat) (h : WireEvent.write d ∈ copyChunks reads wok) :
    ReadStep.chunk d ∈ reads := by
  induction reads generalizing wok with
  | nil => simp [copyChunks] at h
  | cons step rest ih =>
    cases step with
    | err => simp [copyChunks] at h
    | chunk d2 =>
      by_cases hw : wok.headD true = true
      · simp only [copyChunks, hw, if_pos, List.mem_cons] at h
        rcases h with h | h | h
        · cases h
          exact List.mem_cons_self _ _
        · cases h
        · exact List.mem_cons_of_mem _ (ih wok.tail h)
      · simp only [copyChunks, eq_false_of_ne_true hw] at h
        simp at h

/-- C7.  The body-copy loop delivers the stream as a sequence of chunk
writes each immediately followed by a flush (so every chunk reaches the
client before the next read), every written chunk fits the fixed 4096-byte
buffer (given the `io.Reader` contract that a read into a 4096-byte buffer
returns at most 4096 bytes), and the loop stops silently at the first read
error and at the first write error. -/
theorem hls_C7 (reads : List ReadStep) (wok : List Bool)
    (hwf : ∀ d, ReadStep.chunk d ∈ reads → d.length ≤ 4096) :
    chunkedOk (copyChunks reads wok) = true
    ∧ (∀ d, WireEvent.write d ∈ copyChunks reads wok → d.length ≤ 4096)
    ∧ (∀ (rest : List ReadStep) (wok2 : List Bool),
        copyChunks (ReadStep.err :: rest) wok2 = [])
    ∧ (∀ (d : List Nat) (rest : List ReadStep) (wok2 : List Bool),
        copyChunks (ReadStep.chunk d :: rest) (false :: wok2) = []) :=
  ⟨chunkedOk_copyChunks reads wok,
   fun d h => hwf d (copyChunks_write_mem reads wok d h),
   fun _ _ => rfl,
   fun _ _ _ => rfl⟩

/-- Witness for C7 on a concrete two-chunk stream ending in an error. -/
theorem hls_C7_witness :
    chunkedOk (copyChunks
        [ReadStep.chunk [1, 2], ReadStep.chunk [], ReadStep.err] []) = true
    ∧ copyChunks [ReadStep.err] [] = [] := by
  have hwf : ∀ d, ReadStep.chunk d
      ∈ [ReadStep.chunk [1, 2], ReadStep.chunk [], ReadStep.err]
      → d.length ≤ 4096 := by
    intro d hd
    simp only [List.mem_cons, List.not_mem_nil, or_false] at hd
    rcases hd with hd | hd | hd
    · cases hd; decide
    · cases hd; decide
    · cases hd
  exact ⟨(hls_C7 [ReadStep.chunk [1, 2], ReadStep.chunk [], ReadStep.err] []
      hwf).1,
    (hls_C7 [ReadStep.chunk [1, 2], ReadStep.chunk [], ReadStep.err] []
      hwf).2.2.1 [] []⟩

/-- Counterexample to C8 as stated: the reply-slot wait `res := <-cres`
does not wait on the cancellation scope — with the slot never filled and
cancellation already fired, the handler remains blocked (`none`). -/
theorem hls_C8_counterexample : replyAwait false true = none := rfl

/-- C8 (amended).  The three registry-boundary submissions — the request
message, the source-ready event and the worker-closure notification — each
simultaneously wait on the cancellation scope and so cannot remain blocked
after cancellation; the wait for the reply slot, by contrast, is a bare
receive that does not observe the cancellation scope. -/
theorem hls_C8 :
    unblocksOnCancel requestSubmitWait
    ∧ unblocksOnCancel sourceReadyWait
    ∧ unblocksOnCancel remuxerCloseWait
    ∧ ¬ unblocksOnCancel replyAwait := by
  refine ⟨?_, ?_, ?_, ?_⟩
  · intro d; cases d <;> rfl
  · intro d; cases d <;> rfl
  · intro d; cases d <;> rfl
  · intro h
    have hf := h false
    simp [replyAwait] at hf

/-- Counterexample to C10 as stated: on a request whose URL path is the
empty string, `pa := r.URL.Path[1:]` is an out-of-bounds slice — the
handler faults (Go panic: slice bounds out of range) instead of handling
the request. -/
theorem hls_C10_counterexample :
    ServeHTTP [] goGET [] [] false none [] = ServeResult.fault := rfl

/-- C10 (amended).  The slice `r.URL.Path[1:]` is in bounds — and the
handler fault-free — exactly for requests whose URL path is non-empty
(in particular every origin-form path beginning with a slash); the empty
URL path makes the slice out of bounds. -/
theorem hls_C10 (o m p acrh : GoString) (cancelled : Bool)
    (reply : Option (Option (List ReadStep))) (wok : List Bool) (hp : p ≠ []) :
    ServeHTTP o m p acrh cancelled reply wok ≠ ServeResult.fault := by
  cases p with
  | nil => exact absurd rfl hp
  | cons c pa =>
    simp only [ServeHTTP]
    by_cases hm1 : m = goOPTIONS
    · simp [hm1]
    by_cases hm2 : m = goGET
    · subst hm2
      rw [if_neg hm1, if_pos rfl]
      cases routeGet pa with
      | notFound => simp
      | redirect loc => simp
      | lookup dir file =>
        by_cases hc : cancelled
        · simp [hc]
        · cases reply with
          | none => simp [hc]
          | some r => cases r <;> simp [hc]
    · simp [hm1, hm2]

/-- Witness for C10 (amended) on a concrete non-empty path. -/
theorem hls_C10_witness :
    ServeHTTP [] goGET ("*".toList) [] false none [] ≠ ServeResult.fault :=
  hls_C10 [] goGET ("*".toList) [] false none [] (by decide)

lemma sysInv_reachable (st : SysState) (h : SysReachable st) : SysInv st := by
  induction h with
  | init => exact ⟨rfl, by simp [initSys], by simp [initSys], by simp [initSys],
      by simp [initSys]⟩
  | step hr hs ih =>
    cases hs with
    | closeCancel c lp lw wg hs dg =>
      obtain ⟨i1, i2, i3, i4, i5⟩ := ih
      exact ⟨i1, fun _ => rfl, i3, i4, by simp⟩
    | closeReturn c lp lw hs dg =>
      obtain ⟨i1, i2, i3, i4, i5⟩ := ih
      exact ⟨i1, fun _ => i2 (by intro hh; cases hh), i3, i4, fun _ => rfl⟩
    | spawnWorker c lw cp wg hs dg =>
      obtain ⟨i1, i2, i3, i4, i5⟩ := ih
      have h1 : wg = loopUnits LoopPc.looping + lw := i1
      have hl : loopUnits LoopPc.looping = 1 := rfl
      refine ⟨?_, i2, i3, i4, fun hc => ?_⟩
      · show wg + 1 = loopUnits LoopPc.looping + (lw + 1)
        omega
      · have h5 : wg = 0 := i5 hc
        show wg + 1 = 0
        omega
    | observeCancel lw cp wg hs dg =>
      obtain ⟨i1, i2, i3, i4, i5⟩ := ih
      have h1 : wg = loopUnits LoopPc.looping + lw := i1
      refine ⟨?_, fun _ => rfl, by simp, by simp, i5⟩
      show wg = loopUnits LoopPc.brokeOut + lw
      have hl1 : loopUnits LoopPc.looping = 1 := rfl
      have hl2 : loopUnits LoopPc.brokeOut = 1 := rfl
      omega
    | cancelAgain c lw cp wg hs dg =>
      obtain ⟨i1, i2, i3, i4, i5⟩ := ih
      have h1 : wg = loopUnits LoopPc.brokeOut + lw := i1
      refine ⟨?_, fun _ => rfl, by simp, by simp, i5⟩
      show wg = loopUnits LoopPc.didCancel + lw
      have hl1 : loopUnits LoopPc.brokeOut = 1 := rfl
      have hl2 : loopUnits LoopPc.didCancel = 1 := rfl
      omega
    | shutdownHTTP c lw cp wg hs dg =>
      obtain ⟨i1, i2, i3, i4, i5⟩ := ih
      have h1 : wg = loopUnits LoopPc.didCancel + lw := i1
      refine ⟨?_, i2, fun _ => rfl, by simp, i5⟩
      show wg = loopUnits LoopPc.didShutdown + lw
      have hl1 : loopUnits LoopPc.didCancel = 1 := rfl
      have hl2 : loopUnits LoopPc.didShutdown = 1 := rfl
      omega
    | deregister c lw cp wg hs dg =>
      obtain ⟨i1, i2, i3, i4, i5⟩ := ih
      have h1 : wg = loopUnits LoopPc.didShutdown + lw := i1
      refine ⟨?_, i2, fun _ => i3 (Or.inl rfl), fun _ => rfl, i5⟩
      show wg = loopUnits LoopPc.didDereg + lw
      have hl1 : loopUnits LoopPc.didShutdown = 1 := rfl
      have hl2 : loopUnits LoopPc.didDereg = 1 := rfl
      omega
    | loopExit c lw cp wg hs dg =>
      obtain ⟨i1, i2, i3, i4, i5⟩ := ih
      have h1 : wg + 1 = loopUnits LoopPc.didDereg + lw := i1
      have hl1 : loopUnits LoopPc.didDereg = 1 := rfl
      have hl2 : loopUnits LoopPc.exited = 0 := rfl
      refine ⟨?_, i2, fun _ => i3 (Or.inr (Or.inl rfl)),
        fun _ => i4 (Or.inl rfl), fun hc => ?_⟩
      · show wg = loopUnits LoopPc.exited + lw
        omega
      · have h5 : wg + 1 = 0 := i5 hc
        omega
    | workerExit c lp lw cp wg hs dg =>
      obtain ⟨i1, i2, i3, i4, i5⟩ := ih
      have h1 : wg + 1 = loopUnits lp + (lw + 1) := i1
      refine ⟨?_, i2, i3, i4, fun hc => ?_⟩
      · show wg = loopUnits lp + lw
        omega
      · have h5 : wg + 1 = 0 := i5 hc
        omega

/-- C9.  When `close()` has returned, the cancellation scope has fired, the
event loop has exited with the HTTP transport shut down and the server
deregistered from the path manager beforehand, every worker ever created
has finished, and the wait-group counter is zero — so a second `close()`
(an idempotent cancel followed by a wait on a zero counter) is safe and
returns immediately. -/
theorem hls_C9 (st : SysState) (hr : SysReachable st)
    (hc : st.closePc = ClosePc.returned) :
    st.cancelled = true
    ∧ st.loopPc = LoopPc.exited
    ∧ st.liveWorkers = 0
    ∧ st.wg = 0
    ∧ st.httpShut = true
    ∧ st.dereg = true := by
  obtain ⟨i1, i2, i3, i4, i5⟩ := sysInv_reachable st hr
  have hwg : st.wg = 0 := i5 hc
  have hcan : st.cancelled = true := i2 (by rw [hc]; simp)
  have hlp : st.loopPc = LoopPc.exited := by
    cases hlp : st.loopPc <;> rw [hlp] at i1 <;> simp [loopUnits] at i1 <;> omega
  have hlw : st.liveWorkers = 0 := by
    rw [hlp] at i1
    simp [loopUnits] at i1
    omega
  exact ⟨hcan, hlp, hlw, hwg, i3 (Or.inr (Or.inr hlp)), i4 (Or.inr hlp)⟩

/-- Witness for C9: a concrete run — `close` cancels, the loop observes the
cancellation, cancels again, shuts the transport, deregisters and exits,
then `wg.Wait` returns — reaching the fully shut-down state. -/
theorem hls_C9_witness :
    (⟨true, LoopPc.exited, 0, ClosePc.returned, 0, true, true⟩ :
        SysState).cancelled = true
    ∧ (⟨true, LoopPc.exited, 0, ClosePc.returned, 0, true, true⟩ :
        SysState).loopPc = LoopPc.exited
    ∧ (⟨true, LoopPc.exited, 0, ClosePc.returned, 0, true, true⟩ :
        SysState).liveWorkers = 0
    ∧ (⟨true, LoopPc.exited, 0, ClosePc.returned, 0, true, true⟩ :
        SysState).wg = 0
    ∧ (⟨true, LoopPc.exited, 0, ClosePc.returned, 0, true, true⟩ :
        SysState).httpShut = true
    ∧ (⟨true, LoopPc.exited, 0, ClosePc.returned, 0, true, true⟩ :
        SysState).dereg = true :=
  hls_C9 ⟨true, LoopPc.exited, 0, ClosePc.returned, 0, true, true⟩
    (SysReachable.step
      (SysReachable.step
        (SysReachable.step
          (SysReachable.step
            (SysReachable.step
              (SysReachable.step
                (SysReachable.step SysReachable.init
                  (SysStep.closeCancel false LoopPc.looping 0 1 false false))
                (SysStep.observeCancel 0 ClosePc.waiting 1 false false))
              (SysStep.cancelAgain true 0 ClosePc.waiting 1 false false))
            (SysStep.shutdownHTTP true 0 ClosePc.waiting 1 false false))
          (SysStep.deregister true 0 ClosePc.waiting 1 true false))
        (SysStep.loopExit true 0 ClosePc.waiting 0 true true))
      (SysStep.closeReturn true LoopPc.exited 0 true true))
    rfl
